import Mathlib

/-!
# A verification development for the go-dcpp hub

This file gives a shallow embedding, in Lean 4, of the parts of the
go-dcpp code base that the specification talks about:

* the live configuration store of `hub/config.go` (aliases, the ignored
  key set, the typed setters and the generic config map);
* the IRC bridge of `hub/irc.go` (`ircHandshake`, `ircAccept`,
  `ServeIRC` and `ircPeer.PeersJoin`);
* the NMDC client connection (`nmdc.Conn`): `Close`, the fallback
  encoding switch `onUnknownEncoding`, and the `ZOn` raw-message hook
  installed by `NewConn`;
* the ADC client-to-hub connection (`adc/client/client2hub.go`):
  `Conn.Close` and `protocolToHub`.

Go maps are embedded as association lists, Go machine integers as
`Int`/`Nat`, Go `float64` values as an abstract `Rat` carrier (they are
only ever stored and compared, never computed with), fallible Go calls
as `Option`/`Except` values, and effectful methods as explicit
state-passing functions.  Statements about each function follow its Go
source line by line; the doc comment of every definition names the Go
function it embeds.
-/

namespace GoDcpp

/-! ## Configuration store (`hub/config.go`) -/

/-- A Go `interface{}` value as it can appear in the hub config map:
the `setConfig` type switch admits exactly bools, strings, signed and
unsigned integers and floats (`float64` is an abstract carrier here; the
code only stores such values). -/
inductive CVal where
  | vb (x : Bool)
  | vs (x : String)
  | vi (x : Int)
  | vu (x : Nat)
  | vf (x : Rat)
deriving DecidableEq, Repr

/-- The state of a `Hub` that the configuration code of
`hub/config.go` reads and writes.  The dedicated fields are the ones
behind the typed setters (`setName`, `setTopic`, ...); `m` is the
generic config map `h.conf.m`. -/
structure Hub where
  name : String
  desc : String
  topic : String
  motd : String
  owner : String
  website : String
  email : String
  botName : String
  botDesc : String
  isPrivate : Bool
  globalChatEnabled : Bool
  redirectNMDCToTLS : Bool
  redirectNMDCToADC : Bool
  redirectADCToTLS : Bool
  zlibLevel : Int
  m : List (String × CVal)
deriving DecidableEq, Repr

namespace Hub

/-- `hub/config.go`: the `Config*` key constants. -/
def ConfigHubName : String := "hub.name"

def ConfigHubDesc : String := "hub.desc"

def ConfigHubTopic : String := "hub.topic"

def ConfigHubOwner : String := "hub.owner"

def ConfigHubWebsite : String := "hub.website"

def ConfigHubEmail : String := "hub.email"

def ConfigBotName : String := "bot.name"

def ConfigBotDesc : String := "bot.desc"

def ConfigHubMOTD : String := "hub.motd"

def ConfigHubPrivate : String := "hub.private"

def ConfigChatGlobalEnabled : String := "chat.global.enabled"

def ConfigZlibLevel : String := "zlib.level"

def ConfigNMDCRedirectTLS : String := "nmdc.redirect.tls"

def ConfigNMDCRedirectADC : String := "nmdc.redirect.adc"

def ConfigADCRedirectTLS : String := "adc.redirect.tls"

/-- `hub/config.go`: the `configAliases` map. -/
def configAliases : String → Option String
  | "name" => some ConfigHubName
  | "desc" => some ConfigHubDesc
  | "topic" => some ConfigHubTopic
  | "owner" => some ConfigHubOwner
  | "website" => some ConfigHubWebsite
  | "email" => some ConfigHubEmail
  | "botname" => some ConfigBotName
  | "botdesc" => some ConfigBotDesc
  | "motd" => some ConfigHubMOTD
  | "private" => some ConfigHubPrivate
  | _ => none

/-- The alias lookup prelude `if alias, ok := configAliases[key]; ok
{ key = alias }` shared by the typed setters and getters. -/
def resolveAlias (key : String) : String :=
  (configAliases key).getD key

/-- `hub/config.go`: membership in the `configIgnored` map — keys that
can only be set in the config file, never by live mutation. -/
def configIgnored (k : String) : Bool :=
  k == "chat.encoding" || k == "chat.log.join" || k == "chat.log.max" ||
  k == "database.path" || k == "database.type" || k == "plugins.path" ||
  k == "serve.host" || k == "serve.port" || k == "serve.tls.cert" ||
  k == "serve.tls.key" || k == ConfigHubPrivate

/-- The built-in typed keys listed in `Hub.ConfigKeys`. -/
def builtinConfigKeys : List String :=
  [ConfigHubName, ConfigHubDesc, ConfigHubTopic, ConfigHubMOTD,
   ConfigHubOwner, ConfigHubWebsite, ConfigHubEmail, ConfigBotName,
   ConfigBotDesc, ConfigHubPrivate, ConfigChatGlobalEnabled,
   ConfigZlibLevel, ConfigNMDCRedirectTLS, ConfigNMDCRedirectADC,
   ConfigADCRedirectTLS]

/-- Go map read `m[key]`. -/
def mapGet : List (String × CVal) → String → Option CVal
  | [], _ => none
  | (k, v) :: rest, key => if k == key then some v else mapGet rest key

/-- Go map write `m[key] = val`. -/
def mapSet : List (String × CVal) → String → CVal → List (String × CVal)
  | [], key, v => [(key, v)]
  | (k, w) :: rest, key, v =>
    if k == key then (k, v) :: rest else (k, w) :: mapSet rest key v

/-- `Hub.saveConfig`: checks the ignored set and then only carries a
`TODO: persist config` comment — it never mutates the hub state. -/
def saveConfig (h : Hub) (_key : String) (_val : CVal) : Hub := h

/-- `Hub.setConfigMap`. -/
def setConfigMap (h : Hub) (key : String) (val : CVal) : Hub :=
  if configIgnored key then h
  else { h with m := mapSet h.m key val }

/-- `Hub.getConfigMap`. -/
def getConfigMap (h : Hub) (key : String) : Option CVal :=
  mapGet h.m key

/-- Modelled from the spec: `Hub.setName` (and the sibling typed
setters below) live in `hub/hub.go`, which is not under `src/`; per
§3 of the spec, "Built-in keys have typed getters that back onto
dedicated fields", so each setter writes its dedicated field. -/
def setName (h : Hub) (v : String) : Hub := { h with name := v }

/-- Modelled from the spec: see `setName`. -/
def setDesc (h : Hub) (v : String) : Hub := { h with desc := v }

/-- Modelled from the spec: see `setName`. -/
def setTopic (h : Hub) (v : String) : Hub := { h with topic := v }

/-- Modelled from the spec: see `setName`. -/
def setMOTD (h : Hub) (v : String) : Hub := { h with motd := v }

/-- Modelled from the spec: see `setName`. -/
def setOwner (h : Hub) (v : String) : Hub := { h with owner := v }

/-- Modelled from the spec: see `setName`. -/
def setWebsite (h : Hub) (v : String) : Hub := { h with website := v }

/-- Modelled from the spec: see `setName`. -/
def setEmail (h : Hub) (v : String) : Hub := { h with email := v }

/-- Modelled from the spec: see `setName`. -/
def setBotName (h : Hub) (v : String) : Hub := { h with botName := v }

/-- Modelled from the spec: see `setName`. -/
def setBotDesc (h : Hub) (v : String) : Hub := { h with botDesc := v }

/-- Modelled from the spec: see `setName`. -/
def setGlobalChatEnabled (h : Hub) (v : Bool) : Hub :=
  { h with globalChatEnabled := v }

/-- Modelled from the spec: see `setName`. -/
def setRedirectNMDCToTLS (h : Hub) (v : Bool) : Hub :=
  { h with redirectNMDCToTLS := v }

/-- Modelled from the spec: see `setName`. -/
def setRedirectNMDCToADC (h : Hub) (v : Bool) : Hub :=
  { h with redirectNMDCToADC := v }

/-- Modelled from the spec: see `setName`. -/
def setRedirectADCToTLS (h : Hub) (v : Bool) : Hub :=
  { h with redirectADCToTLS := v }

/-- Modelled from the spec: see `setName`. -/
def setZlibLevel (h : Hub) (v : Int) : Hub := { h with zlibLevel := v }

/-- `Hub.setConfigString`: alias resolution, then dispatch to a typed
setter for the nine built-in string keys, else store in the generic
map.  Note: unlike the bool/int/uint/float setters, this one has no
ignored-set check of its own — `setConfigMap` does it. -/
def setConfigString (h : Hub) (key val : String) : Hub :=
  let key := resolveAlias key
  if key == ConfigHubName then setName h val
  else if key == ConfigHubDesc then setDesc h val
  else if key == ConfigHubTopic then setTopic h val
  else if key == ConfigHubMOTD then setMOTD h val
  else if key == ConfigHubOwner then setOwner h val
  else if key == ConfigHubWebsite then setWebsite h val
  else if key == ConfigHubEmail then setEmail h val
  else if key == ConfigBotName then setBotName h val
  else if key == ConfigBotDesc then setBotDesc h val
  else setConfigMap h key (.vs val)

/-- `Hub.SetConfigString`. -/
def SetConfigString (h : Hub) (key val : String) : Hub :=
  saveConfig (setConfigString h key val) key (.vs val)

/-- `fmt.Sprint` as used by `GetConfigString` on a non-string map
value (the exact rendering of such values is irrelevant to the claims
proved below; only the string case is). -/
def goSprint : CVal → String
  | .vb b => if b then "true" else "false"
  | .vs s => s
  | .vi i => toString i
  | .vu n => toString n
  | .vf q => toString q

/-- `Hub.GetConfigString`. -/
def GetConfigString (h : Hub) (key : String) : String × Bool :=
  let key := resolveAlias key
  if key == ConfigHubName then (h.name, true)
  else if key == ConfigHubDesc then (h.desc, true)
  else if key == ConfigHubTopic then (h.topic, true)
  else if key == ConfigHubMOTD then (h.motd, true)
  else if key == ConfigHubOwner then (h.owner, true)
  else if key == ConfigHubWebsite then (h.website, true)
  else if key == ConfigHubEmail then (h.email, true)
  else if key == ConfigBotName then (h.botName, true)
  else if key == ConfigBotDesc then (h.botDesc, true)
  else
    match getConfigMap h key with
    | none => ("", false)
    | some (.vs s) => (s, true)
    | some v => (goSprint v, true)

/-- `Hub.setConfigBool`: alias resolution, ignored-set check, typed
dispatch, generic fallback. -/
def setConfigBool (h : Hub) (key : String) (val : Bool) : Hub :=
  let key := resolveAlias key
  if configIgnored key then h
  else if key == ConfigChatGlobalEnabled then setGlobalChatEnabled h val
  else if key == ConfigNMDCRedirectTLS then setRedirectNMDCToTLS h val
  else if key == ConfigNMDCRedirectADC then setRedirectNMDCToADC h val
  else if key == ConfigADCRedirectTLS then setRedirectADCToTLS h val
  else setConfigMap h key (.vb val)

/-- `Hub.SetConfigBool`. -/
def SetConfigBool (h : Hub) (key : String) (val : Bool) : Hub :=
  saveConfig (setConfigBool h key val) key (.vb val)

/-- `Hub.setConfigInt`. -/
def setConfigInt (h : Hub) (key : String) (val : Int) : Hub :=
  let key := resolveAlias key
  if configIgnored key then h
  else if key == ConfigZlibLevel then setZlibLevel h val
  else setConfigMap h key (.vi val)

/-- `Hub.SetConfigInt`. -/
def SetConfigInt (h : Hub) (key : String) (val : Int) : Hub :=
  saveConfig (setConfigInt h key val) key (.vi val)

/-- `Hub.setConfigUint`: the type switch has only a default arm. -/
def setConfigUint (h : Hub) (key : String) (val : Nat) : Hub :=
  let key := resolveAlias key
  if configIgnored key then h
  else setConfigMap h key (.vu val)

/-- `Hub.SetConfigUint`. -/
def SetConfigUint (h : Hub) (key : String) (val : Nat) : Hub :=
  saveConfig (setConfigUint h key val) key (.vu val)

/-- `Hub.setConfigFloat`: the type switch has only a default arm. -/
def setConfigFloat (h : Hub) (key : String) (val : Rat) : Hub :=
  let key := resolveAlias key
  if configIgnored key then h
  else setConfigMap h key (.vf val)

/-- `Hub.SetConfigFloat`. -/
def SetConfigFloat (h : Hub) (key : String) (val : Rat) : Hub :=
  saveConfig (setConfigFloat h key val) key (.vf val)

/-- `Hub.setConfig`: ignored-set check first, then type-switch
dispatch to the typed setter of the value's dynamic type. -/
def setConfig (h : Hub) (key : String) (val : CVal) (save : Bool) : Hub :=
  if configIgnored key then h
  else
    let h :=
      match val with
      | .vb b => setConfigBool h key b
      | .vs s => setConfigString h key s
      | .vi i => setConfigInt h key i
      | .vu n => setConfigUint h key n
      | .vf q => setConfigFloat h key q
    if save then saveConfig h key val else h

/-- `Hub.SetConfig`. -/
def SetConfig (h : Hub) (key : String) (val : CVal) : Hub :=
  setConfig h key val true

end Hub

end GoDcpp

namespace GoDcpp

/-- Writing to the generic map under any key of the ignored set is a
no-op. -/
theorem Hub.setConfigMap_ignored (h : Hub) (key : String) (v : CVal)
    (hk : Hub.configIgnored key = true) : Hub.setConfigMap h key v = h := by
  simp [Hub.setConfigMap, hk]

/-- C8: for every key in the ignored set, every live mutation
operation (`SetConfig`, `SetConfigBool`, `SetConfigString`,
`SetConfigInt`, `SetConfigUint`, `SetConfigFloat`) leaves the hub
configuration state unchanged: the key is neither stored in the
generic config map nor dispatched to a typed setter. -/
theorem Hub.ignored_keys_frozen_under_live_mutation
    (key : String) (hk : Hub.configIgnored key = true)
    (h : Hub) (v : CVal) (s : String) (b : Bool) (i : Int) (n : Nat) (q : Rat) :
    Hub.SetConfig h key v = h ∧
    Hub.SetConfigBool h key b = h ∧
    Hub.SetConfigString h key s = h ∧
    Hub.SetConfigInt h key i = h ∧
    Hub.SetConfigUint h key n = h ∧
    Hub.SetConfigFloat h key q = h := by
  have hmem := hk
  simp only [Hub.configIgnored, Hub.ConfigHubPrivate, Bool.or_eq_true,
    beq_iff_eq] at hmem
  rcases hmem with ((((((((((h1 | h1) | h1) | h1) | h1) | h1) | h1) | h1) | h1) | h1) | h1) <;>
    subst h1 <;>
    refine ⟨?_, ?_, ?_, ?_, ?_, ?_⟩ <;>
    simp [Hub.SetConfig, Hub.setConfig, Hub.SetConfigBool, Hub.setConfigBool,
      Hub.SetConfigString, Hub.setConfigString, Hub.SetConfigInt,
      Hub.setConfigInt, Hub.SetConfigUint, Hub.setConfigUint,
      Hub.SetConfigFloat, Hub.setConfigFloat, Hub.saveConfig,
      Hub.setConfigMap, Hub.configIgnored, Hub.resolveAlias,
      Hub.configAliases, Hub.ConfigHubName, Hub.ConfigHubDesc,
      Hub.ConfigHubTopic, Hub.ConfigHubOwner, Hub.ConfigHubWebsite,
      Hub.ConfigHubEmail, Hub.ConfigBotName, Hub.ConfigBotDesc,
      Hub.ConfigHubMOTD, Hub.ConfigHubPrivate, Hub.ConfigChatGlobalEnabled,
      Hub.ConfigZlibLevel, Hub.ConfigNMDCRedirectTLS,
      Hub.ConfigNMDCRedirectADC, Hub.ConfigADCRedirectTLS]

/-- A concrete hub state used by the witnesses below. -/
def sampleHub : Hub :=
  ⟨"MyHub", "a hub", "topic", "motd", "me", "example.org", "a@b", "bot",
   "a bot", false, true, false, false, false, 6, [("old.key", .vs "v")]⟩

/-- Witness for C8 at the concrete key `"serve.port"`. -/
theorem Hub.ignored_keys_frozen_witness :
    Hub.configIgnored "serve.port" = true ∧
    Hub.SetConfigString sampleHub "serve.port" "31337" = sampleHub :=
  ⟨by decide,
    (Hub.ignored_keys_frozen_under_live_mutation "serve.port" (by decide)
      sampleHub (.vb true) "31337" true 0 0 0).2.2.1⟩

/-- Reading a key back from the association list right after writing
it yields the written value. -/
theorem Hub.mapGet_mapSet (m : List (String × CVal)) (k : String) (v : CVal) :
    Hub.mapGet (Hub.mapSet m k v) k = some v := by
  induction m with
  | nil => simp [Hub.mapSet, Hub.mapGet]
  | cons p rest ih =>
    obtain ⟨k1, v1⟩ := p
    by_cases hkk : k1 == k
    · simp [Hub.mapSet, Hub.mapGet, hkk]
    · simp only [Hub.mapSet, hkk, Bool.false_eq_true, if_false]
      simp [Hub.mapGet, hkk, ih]

/-- C9: for every key that is not a built-in typed key, not an alias
of one, and not in the ignored set, and every string value `v`,
`SetConfigString key v` followed by `GetConfigString key` returns
`(v, true)`: unknown keys round-trip through the generic config map
unchanged. -/
theorem Hub.unknown_key_string_round_trip
    (key : String) (v : String) (h : Hub)
    (halias : Hub.configAliases key = none)
    (hbuiltin : key ∉ Hub.builtinConfigKeys)
    (hign : Hub.configIgnored key = false) :
    Hub.GetConfigString (Hub.SetConfigString h key v) key = (v, true) := by
  simp only [Hub.builtinConfigKeys, List.mem_cons, List.not_mem_nil, or_false,
    not_or] at hbuiltin
  obtain ⟨h1, h2, h3, h4, h5, h6, h7, h8, h9, -, -, -, -, -, -⟩ := hbuiltin
  have e1 : (key == Hub.ConfigHubName) = false := by simpa using h1
  have e2 : (key == Hub.ConfigHubDesc) = false := by simpa using h2
  have e3 : (key == Hub.ConfigHubTopic) = false := by simpa using h3
  have e4 : (key == Hub.ConfigHubMOTD) = false := by simpa using h4
  have e5 : (key == Hub.ConfigHubOwner) = false := by simpa using h5
  have e6 : (key == Hub.ConfigHubWebsite) = false := by simpa using h6
  have e7 : (key == Hub.ConfigHubEmail) = false := by simpa using h7
  have e8 : (key == Hub.ConfigBotName) = false := by simpa using h8
  have e9 : (key == Hub.ConfigBotDesc) = false := by simpa using h9
  simp [Hub.SetConfigString, Hub.setConfigString, Hub.GetConfigString,
    Hub.saveConfig, Hub.resolveAlias, halias, e1, e2, e3, e4, e5, e6, e7, e8,
    e9, Hub.setConfigMap, hign, Hub.getConfigMap, Hub.mapGet_mapSet]

/-- Witness for C9 at the concrete key `"my.custom.key"`. -/
theorem Hub.unknown_key_string_round_trip_witness :
    Hub.GetConfigString (Hub.SetConfigString sampleHub "my.custom.key" "hello")
      "my.custom.key" = ("hello", true) :=
  Hub.unknown_key_string_round_trip "my.custom.key" "hello" sampleHub
    (by decide) (by decide) (by decide)

end GoDcpp

namespace GoDcpp

/-! ## The NMDC client connection (`nmdc/conn.go`, `src/unnamed/part_001`) -/

namespace Nmdc

/-- The fields of `nmdc.Conn` that `Close` touches: the `closed` flag
plus, for the effect on the world, whether the writer, the socket and
the reader have been closed. -/
structure ConnState where
  closed : Bool
  wClosed : Bool
  connClosed : Bool
  rClosed : Bool
deriving DecidableEq, Repr

/-- A fresh connection as produced by `NewConn`. -/
def connInit : ConnState := ⟨false, false, false, false⟩

/-- Outcomes of the underlying close calls: the error returned by
`c.w.Close()` and by `c.r.Close()` (`c.conn.Close()`'s error is
discarded by the source). -/
structure CloseErrs where
  wErr : Option String
  rErr : Option String

/-- `nmdc.Conn.Close`: under `wmu`, return `nil` at once if `closed`
is already set; otherwise set it, close the writer (recording its
error in `last`), close the socket (error discarded), close the reader
(its error overwrites `last`), and return `last`. -/
def Close (io : CloseErrs) (s : ConnState) : Option String × ConnState :=
  if s.closed then (none, s)
  else
    let last := match io.rErr with
      | some e => some e
      | none => io.wErr
    (last, { closed := true, wClosed := true, connClosed := true,
             rClosed := true })

/-- The connection state after calling `Close` `n` times in a row. -/
def closeN (io : CloseErrs) (s : ConnState) : Nat → ConnState
  | 0 => s
  | n + 1 => (Close io (closeN io s n)).2

/-- The value returned by the `k`-th call of a row of `Close` calls
(`k` counted from 1). -/
def closeRet (io : CloseErrs) (s : ConnState) (k : Nat) : Option String :=
  (Close io (closeN io s (k - 1))).1

theorem nmdcCloseN_succ_eq (io : CloseErrs) (n : Nat) :
    closeN io connInit (n + 1) = ⟨true, true, true, true⟩ := by
  induction n with
  | zero => rfl
  | succ n ih =>
    show (Close io (closeN io connInit (n + 1))).2 = _
    rw [ih]
    simp [Close]

end Nmdc

/-! ## The ADC client-to-hub connection (`adc/client/client2hub.go`) -/

namespace AdcClient

/-- The part of `client.Conn` that `Close` reads and writes: whether
the `closing` channel has been closed.  (The `closed` channel only
makes `Close` wait for the read loop to exit; it carries no return
value.) -/
structure ConnState where
  closingClosed : Bool
deriving DecidableEq, Repr

/-- A connection as produced by `HubHandshake`. -/
def connInit : ConnState := ⟨false⟩

/-- `client.Conn.Close`: if `closing` is already closed, wait for the
read loop and return `nil`; otherwise close `closing`, close the
underlying `adc.Conn` (whose error is returned), and wait for the read
loop. -/
def Close (connErr : Option String) (s : ConnState) :
    Option String × ConnState :=
  if s.closingClosed then (none, s)
  else (connErr, ⟨true⟩)

/-- The connection state after calling `Close` `n` times in a row. -/
def closeN (connErr : Option String) (s : ConnState) : Nat → ConnState
  | 0 => s
  | n + 1 => (Close connErr (closeN connErr s n)).2

/-- The value returned by the `k`-th call of a row of `Close` calls. -/
def closeRet (connErr : Option String) (s : ConnState) (k : Nat) :
    Option String :=
  (Close connErr (closeN connErr s (k - 1))).1

theorem adcCloseN_succ_eq (connErr : Option String) (n : Nat) :
    closeN connErr connInit (n + 1) = ⟨true⟩ := by
  induction n with
  | zero => rfl
  | succ n ih =>
    show (Close connErr (closeN connErr connInit (n + 1))).2 = _
    rw [ih]
    simp [Close]

end AdcClient

/-- C2: `Close` is idempotent for both the NMDC client connection and
the ADC client-to-hub connection: calling it `k ≥ 1` times leaves the
connection in the same state as calling it once, the first call's
return value is that of the single call, and every call after the
first returns success (`none`). -/
theorem close_idempotent (io : Nmdc.CloseErrs) (connErr : Option String)
    (k : Nat) (hk : 1 ≤ k) :
    (Nmdc.closeN io Nmdc.connInit k = Nmdc.closeN io Nmdc.connInit 1 ∧
     Nmdc.closeRet io Nmdc.connInit 1 = (Nmdc.Close io Nmdc.connInit).1 ∧
     ∀ i, 2 ≤ i → Nmdc.closeRet io Nmdc.connInit i = none) ∧
    (AdcClient.closeN connErr AdcClient.connInit k =
       AdcClient.closeN connErr AdcClient.connInit 1 ∧
     AdcClient.closeRet connErr AdcClient.connInit 1 =
       (AdcClient.Close connErr AdcClient.connInit).1 ∧
     ∀ i, 2 ≤ i → AdcClient.closeRet connErr AdcClient.connInit i = none) := by
  obtain ⟨k, rfl⟩ : ∃ n, k = n + 1 := ⟨k - 1, (Nat.succ_pred_eq_of_pos hk).symm⟩
  refine ⟨⟨?_, rfl, ?_⟩, ⟨?_, rfl, ?_⟩⟩
  · rw [Nmdc.nmdcCloseN_succ_eq, Nmdc.nmdcCloseN_succ_eq]
  · intro i hi
    obtain ⟨j, rfl⟩ : ∃ n, i = n + 2 := ⟨i - 2, by omega⟩
    show (Nmdc.Close io (Nmdc.closeN io Nmdc.connInit (j + 1))).1 = none
    rw [Nmdc.nmdcCloseN_succ_eq]
    simp [Nmdc.Close]
  · rw [AdcClient.adcCloseN_succ_eq, AdcClient.adcCloseN_succ_eq]
  · intro i hi
    obtain ⟨j, rfl⟩ : ∃ n, i = n + 2 := ⟨i - 2, by omega⟩
    show (AdcClient.Close connErr
      (AdcClient.closeN connErr AdcClient.connInit (j + 1))).1 = none
    rw [AdcClient.adcCloseN_succ_eq]
    simp [AdcClient.Close]

/-- Witness for C2: three closes on a connection whose writer and
reader closes both fail still collapse to one close, and the second
call returns `none`. -/
theorem close_idempotent_witness :
    Nmdc.closeN ⟨some "werr", some "rerr"⟩ Nmdc.connInit 3 =
      Nmdc.closeN ⟨some "werr", some "rerr"⟩ Nmdc.connInit 1 ∧
    Nmdc.closeRet ⟨some "werr", some "rerr"⟩ Nmdc.connInit 2 = none ∧
    AdcClient.closeN (some "cerr") AdcClient.connInit 3 =
      AdcClient.closeN (some "cerr") AdcClient.connInit 1 ∧
    AdcClient.closeRet (some "cerr") AdcClient.connInit 2 = none := by
  have h := close_idempotent ⟨some "werr", some "rerr"⟩ (some "cerr") 3
    (by decide)
  exact ⟨h.1.1, h.1.2.2 2 (by decide), h.2.1, h.2.2.2 2 (by decide)⟩

namespace Nmdc

/-! ### Fallback encoding (`Conn.onUnknownEncoding`, `Conn.setEncoding`) -/

/-- The encoding-related state of an `nmdc.Conn`: the writer's active
encoder, the reader's active decoder (the decoder the `go-dc` reader
uses for incoming text, including one returned by the
`OnUnknownEncoding` callback), and the configured fallback encoding.
Encodings are identified by an abstract tag; `none` stands for the
nil encoder/decoder (plain UTF-8). -/
structure CodecState where
  encoder : Option Nat
  decoder : Option Nat
  fallback : Option Nat
deriving DecidableEq, Repr

/-- `Conn.onUnknownEncoding`, invoked by the reader when the incoming
`text` failed to decode with the active decoder.  `decode enc text`
models `enc.NewDecoder().String(text)` (`none` on error) and
`validUTF8` models `utf8.ValidString`.  The returned `Option Nat` is
the decoder handed back to the reader (`none` keeps the current one);
on success the writer's encoder is switched via
`setEncoding(fallback, true)` and the returned fallback decoder
becomes the reader's active decoder. -/
def onUnknownEncoding (decode : Nat → List Nat → Option String)
    (validUTF8 : String → Bool) (s : CodecState) (text : List Nat) :
    Option Nat × CodecState :=
  match s.fallback with
  | none => (none, s)
  | some fb =>
    match decode fb text with
    | none => (none, s)
    | some str =>
      if validUTF8 str then
        (some fb, { s with encoder := some fb, decoder := some fb })
      else (none, s)

end Nmdc

/-- C3: with a configured fallback encoding, when an incoming text
fails to decode with the active decoder the codec decodes it with the
fallback; if and only if that decode succeeds and yields valid UTF-8,
the connection switches its active encoding to the fallback (the
returned fallback decoder serves this text and all subsequent reads,
and all subsequent writes use the fallback encoder); if the fallback
decode fails or yields invalid UTF-8, the decoder and encoder are
unchanged. -/
theorem fallback_encoding_switch
    (decode : Nat → List Nat → Option String) (validUTF8 : String → Bool)
    (s : Nmdc.CodecState) (text : List Nat) (fb : Nat)
    (hfb : s.fallback = some fb) :
    (∀ str, decode fb text = some str → validUTF8 str = true →
      Nmdc.onUnknownEncoding decode validUTF8 s text =
        (some fb, ⟨some fb, some fb, some fb⟩)) ∧
    (decode fb text = none →
      Nmdc.onUnknownEncoding decode validUTF8 s text = (none, s)) ∧
    (∀ str, decode fb text = some str → validUTF8 str = false →
      Nmdc.onUnknownEncoding decode validUTF8 s text = (none, s)) := by
  refine ⟨fun str hdec hv => ?_, fun hdec => ?_, fun str hdec hv => ?_⟩
  · simp [Nmdc.onUnknownEncoding, hfb, hdec, hv]
  · simp [Nmdc.onUnknownEncoding, hfb, hdec]
  · simp [Nmdc.onUnknownEncoding, hfb, hdec, hv]

/-- Witness for C3: a decoder that accepts exactly the byte `42`
switches the codec to the fallback encoding `7` on input `[42]` and
leaves it untouched on input `[1]`. -/
theorem fallback_encoding_switch_witness :
    Nmdc.onUnknownEncoding
        (fun _ text => if text == [42] then some "ok" else none)
        (fun _ => true) ⟨none, none, some 7⟩ [42] =
      (some 7, ⟨some 7, some 7, some 7⟩) ∧
    Nmdc.onUnknownEncoding
        (fun _ text => if text == [42] then some "ok" else none)
        (fun _ => true) ⟨none, none, some 7⟩ [1] =
      (none, ⟨none, none, some 7⟩) := by
  have h1 := fallback_encoding_switch
    (fun _ text => if text == [42] then some "ok" else none)
    (fun _ => true) ⟨none, none, some 7⟩ [42] 7 rfl
  have h2 := fallback_encoding_switch
    (fun _ text => if text == [42] then some "ok" else none)
    (fun _ => true) ⟨none, none, some 7⟩ [1] 7 rfl
  exact ⟨h1.1 "ok" (by decide) rfl, h2.2.1 (by decide)⟩

namespace Nmdc

/-! ### The `ZOn` hook installed by `NewConn` -/

/-- The reader-side stream state: whether the underlying byte stream
currently goes through the zlib inflater. -/
structure ReaderState where
  zlibOn : Bool
deriving DecidableEq, Repr

/-- The `OnRawMessage` hook that `NewConn` installs: on a raw command
named exactly `ZOn` it calls `c.r.EnableZlib()` and returns `false`;
on every other command it returns `true` and changes nothing.  The
returned `Bool` is the hook's continue flag handed to the reader. -/
def newConnRawHook (cmd : String) (st : ReaderState) : Bool × ReaderState :=
  if cmd == "ZOn" then (false, { zlibOn := true })
  else (true, st)

/-- Modelled from the spec: the `go-dc` `nmdc.Reader` message loop
that invokes the raw-message hooks is not under `src/` (it lives in
the `github.com/RoLex/go-dc` module).  Per the spec, "The reader
recognizes a raw `ZOn` command and, after delivering it, switches the
underlying byte stream through a zlib inflater until end-of-stream":
each raw command is read with the current stream state and delivered,
and the hook's effect on the stream applies to the bytes that follow.
The result pairs every delivered command with whether its bytes came
through the inflater. -/
def readerRun : ReaderState → List String → List (String × Bool)
  | _, [] => []
  | st, cmd :: rest =>
    (cmd, st.zlibOn) :: readerRun (newConnRawHook cmd st).2 rest

/-- Once the inflater is on it stays on: the hook never disables it. -/
theorem readerRun_zlib_stays (msgs : List String) :
    readerRun ⟨true⟩ msgs = msgs.map (fun c => (c, true)) := by
  induction msgs with
  | nil => rfl
  | cons cmd rest ih =>
    show (cmd, true) :: readerRun (newConnRawHook cmd ⟨true⟩).2 rest = _
    have hh : (newConnRawHook cmd ⟨true⟩).2 = ⟨true⟩ := by
      by_cases hc : cmd == "ZOn" <;> simp [newConnRawHook, hc]
    rw [hh, ih]
    simp

end Nmdc

/-- C4: when the reader reads a raw command named exactly `ZOn`, it
delivers that message to the consumer and then switches the byte
stream through the zlib inflater, so every command after the `ZOn` is
read decompressed until end-of-stream; commands before the `ZOn` are
read plain. -/
theorem zon_switches_to_zlib (pre post : List String)
    (hpre : ∀ c ∈ pre, c ≠ "ZOn") :
    Nmdc.readerRun ⟨false⟩ (pre ++ "ZOn" :: post) =
      pre.map (fun c => (c, false)) ++
        ("ZOn", false) :: post.map (fun c => (c, true)) := by
  induction pre with
  | nil =>
    show ("ZOn", false) ::
      Nmdc.readerRun (Nmdc.newConnRawHook "ZOn" ⟨false⟩).2 post = _
    have hh : (Nmdc.newConnRawHook "ZOn" ⟨false⟩).2 = ⟨true⟩ := by
      simp [Nmdc.newConnRawHook]
    rw [hh, Nmdc.readerRun_zlib_stays]
    simp
  | cons c rest ih =>
    have hc : c ≠ "ZOn" := hpre c (by simp)
    show (c, false) ::
      Nmdc.readerRun (Nmdc.newConnRawHook c ⟨false⟩).2 (rest ++ "ZOn" :: post)
        = _
    have hh : (Nmdc.newConnRawHook c ⟨false⟩).2 = ⟨false⟩ := by
      simp [Nmdc.newConnRawHook, hc]
    rw [hh, ih (fun x hx => hpre x (by simp [hx]))]
    simp

/-- Witness for C4: in the stream `MyINFO, ZOn, Search, To` the two
commands before and including `ZOn` are read plain and the two after
it are read through the inflater. -/
theorem zon_switches_to_zlib_witness :
    Nmdc.readerRun ⟨false⟩ ["MyINFO", "ZOn", "Search", "To"] =
      [("MyINFO", false), ("ZOn", false), ("Search", true), ("To", true)] := by
  have h := zon_switches_to_zlib ["MyINFO"] ["Search", "To"]
    (by intro c hc; simp at hc; simp [hc])
  simpa using h

/-! ## ADC PROTOCOL phase (`adc/client/client2hub.go`, `protocolToHub`) -/

namespace AdcClient

/-- ADC feature names used by `protocolToHub`. -/
def FeaBASE : String := "BASE"

def FeaBAS0 : String := "BAS0"

def FeaTIGR : String := "TIGR"

def FeaBZIP : String := "BZIP"

/-- `adcp.ModFeatures` as a support function: `f x = true` means the
feature `x` is present (set to add).  `Intersect` and `IsSet` live in
the `go-dc` module, not under `src/`; they are modelled as pointwise
conjunction and membership, which is their meaning for the all-true
feature map the client sends. -/
def ModFeatures : Type := String → Bool

/-- `ModFeatures.Intersect`. -/
def mfIntersect (f g : ModFeatures) : ModFeatures := fun x => f x && g x

/-- `ModFeatures.IsSet`. -/
def mfIsSet (f : ModFeatures) (x : String) : Bool := f x

/-- The `ourFeatures` map of `protocolToHub`: BASE, BAS0, TIGR and
BZIP, all enabled. -/
def ourFeatures : ModFeatures := fun x =>
  x == FeaBASE || x == FeaBAS0 || x == FeaTIGR || x == FeaBZIP

/-- The result of the PROTOCOL phase: a session identifier plus the
mutual feature set, or an error (in which case no SID is
established). -/
inductive ProtocolResult where
  | ok (sid : Nat) (mutualFea : ModFeatures)
  | err (msg : String)

/-- `protocolToHub`, after the client's own `HSUP` was written: the
hub's `SUP` arrives with `hubFeatures`; the mutual set must contain
BASE or BAS0 and also TIGR, otherwise the handshake fails before the
SID-assignment message is even read.  `sidMsg` is the subsequent
SID-assignment message (`none` when the read fails or the message is
not a `SID`). -/
def protocolToHub (hubFeatures : ModFeatures) (sidMsg : Option Nat) :
    ProtocolResult :=
  let mutualFea := mfIntersect ourFeatures hubFeatures
  if !(mfIsSet mutualFea FeaBASE) && !(mfIsSet mutualFea FeaBAS0) then
    .err "hub does not support BASE"
  else if !(mfIsSet mutualFea FeaTIGR) then
    .err "hub does not support TIGR"
  else
    match sidMsg with
    | none => .err "expected SID command"
    | some sid => .ok sid mutualFea

end AdcClient

/-- C5: after the SUP exchange the handshake succeeds only if the
feature intersection contains BASE or BAS0 and also contains TIGR;
whenever the intersection lacks both BASE and BAS0, or lacks TIGR, the
handshake returns an error and no session identifier is
established. -/
theorem protocol_requires_base_and_tigr
    (hubFeatures : AdcClient.ModFeatures) (sidMsg : Option Nat) :
    (∀ sid mf,
      AdcClient.protocolToHub hubFeatures sidMsg = .ok sid mf →
      ((AdcClient.mfIntersect AdcClient.ourFeatures hubFeatures
          AdcClient.FeaBASE ||
        AdcClient.mfIntersect AdcClient.ourFeatures hubFeatures
          AdcClient.FeaBAS0) &&
       AdcClient.mfIntersect AdcClient.ourFeatures hubFeatures
          AdcClient.FeaTIGR) = true) ∧
    (((AdcClient.mfIntersect AdcClient.ourFeatures hubFeatures
          AdcClient.FeaBASE ||
       AdcClient.mfIntersect AdcClient.ourFeatures hubFeatures
          AdcClient.FeaBAS0) &&
      AdcClient.mfIntersect AdcClient.ourFeatures hubFeatures
          AdcClient.FeaTIGR) = false →
      ∃ e, AdcClient.protocolToHub hubFeatures sidMsg = .err e) := by
  constructor
  · intro sid mf hok
    cases hb1 : AdcClient.mfIntersect AdcClient.ourFeatures hubFeatures
        AdcClient.FeaBASE <;>
      cases hb2 : AdcClient.mfIntersect AdcClient.ourFeatures hubFeatures
        AdcClient.FeaBAS0 <;>
      cases hb3 : AdcClient.mfIntersect AdcClient.ourFeatures hubFeatures
        AdcClient.FeaTIGR <;>
      simp [AdcClient.protocolToHub, AdcClient.mfIsSet, hb1, hb2, hb3] at hok ⊢
  · intro hfail
    cases hb1 : AdcClient.mfIntersect AdcClient.ourFeatures hubFeatures
        AdcClient.FeaBASE <;>
      cases hb2 : AdcClient.mfIntersect AdcClient.ourFeatures hubFeatures
        AdcClient.FeaBAS0 <;>
      cases hb3 : AdcClient.mfIntersect AdcClient.ourFeatures hubFeatures
        AdcClient.FeaTIGR <;>
      simp [AdcClient.protocolToHub, AdcClient.mfIsSet, hb1, hb2, hb3]
        at hfail ⊢

/-- Witness for C5: a hub offering only BASE and BZIP (no TIGR) makes
the handshake fail even though a SID message is waiting. -/
theorem protocol_requires_base_and_tigr_witness :
    ∃ e, AdcClient.protocolToHub
        (fun x => x == "BASE" || x == "BZIP") (some 5) = .err e :=
  (protocol_requires_base_and_tigr
    (fun x => x == "BASE" || x == "BZIP") (some 5)).2 (by decide)

/-! ## The IRC bridge (`hub/irc.go`) -/

namespace Irc

/-- An IRC message as the `go-irc` library presents it: an origin
(the `:`-led source field, `""` when absent), a command and parameter
list. -/
structure IrcMsg where
  pfx : String
  command : String
  params : List String
deriving DecidableEq, Repr

/-- `ircHubChan`. -/
def ircHubChan : String := "#hub"

/-! ### `Hub.ircHandshake` after a successful `reserveName` (C1) -/

/-- The errors `ircHandshake` can exit with once the nick has been
reserved, in source order. -/
inductive HsErr where
  | getUserFailed
  | connInsecure
  | passwordUnsupported
  | serverIsPrivate
  | acceptFailed
deriving DecidableEq, Repr

/-- The tail of `Hub.ircHandshake`, entered right after `reserveName`
returned `unbind` with `ok` — everything from `h.getUser(name)` to the
final `return peer, nil`.  Booleans stand for the branch conditions:
`getUserErr` = `h.getUser` returned an error, `usrSome`/`recSome` =
`usr != nil`/`rec != nil`, `cinfoSome` = `cinfo != nil`, `secure` =
`cinfo.Secure`, `isPrivate` = `h.IsPrivate()`, `acceptErr` =
`h.ircAccept(peer)` returned an error.  The second component counts
how many times `unbind()` is called on the taken path. -/
def ircHandshakeAfterReserve (getUserErr usrSome recSome cinfoSome secure
    isPrivate acceptErr : Bool) : Except HsErr Unit × Nat :=
  if getUserErr then (.error .getUserFailed, 1)
  else if usrSome && recSome then
    if cinfoSome && !secure then (.error .connInsecure, 1)
    else (.error .passwordUnsupported, 1)
  else if isPrivate then (.error .serverIsPrivate, 1)
  else if acceptErr then (.error .acceptFailed, 1)
  else (.ok (), 0)

end Irc

/-- C1: once the nick is reserved in the IRC handshake, every path
that exits with an error — user-record lookup failure, registered user
on an insecure connection, registered user requiring a password,
private hub refusing an unregistered user, or a failure inside the
acceptance step — calls the release function `unbind` exactly once
before returning, and the successful path does not call it (the
reservation transfers to the accepted peer). -/
theorem irc_handshake_releases_reservation_on_error
    (getUserErr usrSome recSome cinfoSome secure isPrivate acceptErr : Bool) :
    (Irc.ircHandshakeAfterReserve getUserErr usrSome recSome cinfoSome
        secure isPrivate acceptErr).2 =
      match (Irc.ircHandshakeAfterReserve getUserErr usrSome recSome
          cinfoSome secure isPrivate acceptErr).1 with
      | .error _ => 1
      | .ok _ => 0 := by
  cases getUserErr <;> cases usrSome <;> cases recSome <;> cases cinfoSome <;>
    cases secure <;> cases isPrivate <;> cases acceptErr <;> rfl

namespace Irc

/-! ### `Hub.ircAccept` (C6) and `ircPeer.PeersJoin` -/

/-- Everything `ircAccept` observably does, in order: messages written
to the client, the `acceptPeer` call and the `broadcastUserJoin`
call. -/
inductive AcceptEvent where
  | sent (m : IrcMsg)
  | accepted
  | broadcastJoin
deriving DecidableEq, Repr

/-- The hub-side identity data `ircAccept` interpolates into the
welcome numerics, plus the currently-online peer list.  `hostPfx` is
the host-name origin used on the numerics, `ownPfx` the client's own
origin used on the JOIN echo, and `peers` carries one origin per
online peer (`ircPeer.PeersJoin` uses the peer's own origin for IRC
peers and a synthesized `name!name@host` origin otherwise). -/
structure AcceptEnv where
  hostPfx : String
  ownPfx : String
  name : String
  hubName : String
  host : String
  port : String
  vers : String
  createdDate : String
  createdTime : String
  peers : List String
deriving DecidableEq, Repr

/-- The five welcome numerics `001`–`005` that `ircAccept` writes, in
source order with the source text. -/
def ircNumerics (e : AcceptEnv) : List IrcMsg :=
  [⟨e.hostPfx, "001",
    [e.name, "Welcome to the " ++ e.hubName ++
      " Internet Relay Chat Network " ++ e.name]⟩,
   ⟨e.hostPfx, "002",
    [e.name, "Your host is " ++ e.host ++ "[" ++ e.host ++ "/" ++ e.port ++
      "], running version " ++ e.vers]⟩,
   ⟨e.hostPfx, "003",
    [e.name, "This server was created " ++ e.createdDate ++ " at " ++
      e.createdTime ++ " UTC"]⟩,
   ⟨e.hostPfx, "004",
    [e.name, e.host, e.vers, "DOQRSZaghilopswz",
     "CFILMPQSbcefgijklmnopqrstvz", "bkloveqjfI"]⟩,
   ⟨e.hostPfx, "005",
    [e.name, "CHANTYPES=#", "EXCEPTS", "INVEX",
     "CHANMODES=eIbq,k,flj,CFLMPQScgimnprstz", "CHANLIMIT=#:120",
     "PREFIX=(ov)@+", "MAXLIST=bqeI:100", "MODES=4", "NETWORK=freenode",
     "STATUSMSG=@+", "CALLERID=g", "CASEMAPPING=rfc1459",
     "are supported by this server"]⟩]

/-- The `waitJoin` loop of `ircAccept`: replies `PONG` to `PING`,
fails (handshake error) on a `JOIN` whose parameters are not exactly
`["#hub"]`, breaks out on `JOIN #hub`, and merely logs anything else.
Returns the messages written during the loop and whether it broke out
successfully; an exhausted input models a read error. -/
def waitJoin : List IrcMsg → List AcceptEvent × Bool
  | [] => ([], false)
  | m :: rest =>
    if m.command == "PING" then
      let (es, ok) := waitJoin rest
      (.sent { m with command := "PONG" } :: es, ok)
    else if m.command == "JOIN" then
      if m.params == [ircHubChan] then ([], true) else ([], false)
    else waitJoin rest

/-- `ircPeer.PeersJoin` as called by `ircAccept` with `h.Peers()`: one
synthetic `JOIN #hub` per online peer, carrying that peer's origin. -/
def PeersJoin (peers : List String) : List IrcMsg :=
  peers.map (fun p => ⟨p, "JOIN", [ircHubChan]⟩)

/-- `Hub.ircAccept`: write numerics `001`–`005`, run the `waitJoin`
loop over the incoming messages, and on success echo the client's
`JOIN`, send the synthetic `JOIN`s for all online peers, accept the
peer into the roster and broadcast its join.  The Boolean result is
`err == nil`. -/
def ircAccept (e : AcceptEnv) (incoming : List IrcMsg) :
    List AcceptEvent × Bool :=
  let nums := (ircNumerics e).map .sent
  let (loopEvents, ok) := waitJoin incoming
  if ok then
    (nums ++ loopEvents ++
      [.sent ⟨e.ownPfx, "JOIN", [ircHubChan]⟩] ++
      (PeersJoin e.peers).map .sent ++
      [.accepted, .broadcastJoin], true)
  else (nums ++ loopEvents, false)

/-- The `waitJoin` loop never accepts a peer by itself. -/
theorem waitJoin_no_accept (incoming : List IrcMsg) :
    AcceptEvent.accepted ∉ (waitJoin incoming).1 := by
  induction incoming with
  | nil => simp [waitJoin]
  | cons m rest ih =>
    by_cases hp : m.command == "PING"
    · simpa [waitJoin, hp] using ih
    · by_cases hj : m.command == "JOIN"
      · by_cases hc : m.params == [ircHubChan] <;> simp [waitJoin, hp, hj, hc]
      · simpa [waitJoin, hp, hj] using ih

/-- The `waitJoin` loop succeeds exactly when the first `JOIN` among
the incoming messages asks for exactly the `#hub` channel. -/
theorem waitJoin_ok_iff (incoming : List IrcMsg) :
    (waitJoin incoming).2 = true ↔
      ∃ m, incoming.find? (fun m => m.command == "JOIN") = some m ∧
        m.params = [ircHubChan] := by
  induction incoming with
  | nil => simp [waitJoin]
  | cons m rest ih =>
    by_cases hp : m.command == "PING"
    · have hj : (m.command == "JOIN") = false := by
        have := beq_iff_eq.mp hp
        simp [this]
      rw [show (waitJoin (m :: rest)).2 = (waitJoin rest).2 by
        simp [waitJoin, hp]]
      rw [ih]
      simp [List.find?, hj]
    · by_cases hj : m.command == "JOIN"
      · by_cases hc : m.params == [ircHubChan]
        · simp [waitJoin, hp, hj, hc, List.find?, beq_iff_eq.mp hc]
        · simp only [waitJoin, hp, Bool.false_eq_true, if_false, hj, if_true,
            hc, List.find?]
          constructor
          · intro h
            cases h
          · rintro ⟨m2, hm2, hparams⟩
            rw [Option.some_inj] at hm2
            subst hm2
            exact absurd hparams (by simpa using hc)
      · rw [show (waitJoin (m :: rest)).2 = (waitJoin rest).2 by
          simp [waitJoin, hp, hj]]
        rw [ih]
        simp [List.find?, hj]

end Irc

/-- C6: `ircAccept` first sends numerics `001`–`005` in that order,
then waits for a `JOIN`: the handshake succeeds exactly when the first
`JOIN` received asks for the `#hub` channel (any other channel fails
it, and a failed handshake never accepts the peer); after a
`JOIN #hub` the hub echoes the JOIN to the client, then sends one
synthetic `JOIN #hub` for every peer currently online, and only then
accepts the peer and broadcasts its join. -/
theorem irc_accept_sequence (e : Irc.AcceptEnv) (incoming : List Irc.IrcMsg) :
    ((Irc.ircAccept e incoming).1.take 5 =
        (Irc.ircNumerics e).map .sent ∧
      (Irc.ircNumerics e).map (fun m => m.command) =
        ["001", "002", "003", "004", "005"]) ∧
    ((Irc.ircAccept e incoming).2 = true ↔
      ∃ m, incoming.find? (fun m => m.command == "JOIN") = some m ∧
        m.params = [Irc.ircHubChan]) ∧
    ((Irc.ircAccept e incoming).2 = false →
      Irc.AcceptEvent.accepted ∉ (Irc.ircAccept e incoming).1) ∧
    (∀ les, Irc.waitJoin incoming = (les, true) →
      Irc.ircAccept e incoming =
        ((Irc.ircNumerics e).map .sent ++ les ++
          [.sent ⟨e.ownPfx, "JOIN", [Irc.ircHubChan]⟩] ++
          (Irc.PeersJoin e.peers).map .sent ++
          [.accepted, .broadcastJoin], true)) := by
  refine ⟨⟨?_, ?_⟩, ?_, ?_, ?_⟩
  · have hlen : ((Irc.ircNumerics e).map Irc.AcceptEvent.sent).length = 5 := by
      simp [Irc.ircNumerics]
    rcases hw : Irc.waitJoin incoming with ⟨les, ok⟩
    cases ok <;>
      simp [Irc.ircAccept, hw, List.take_append_of_le_length, hlen.le,
        ← hlen, List.take_length, List.take_append]
  · simp [Irc.ircNumerics]
  · rcases hw : Irc.waitJoin incoming with ⟨les, ok⟩
    have := Irc.waitJoin_ok_iff incoming
    rw [hw] at this
    cases ok <;> simp [Irc.ircAccept, hw] <;> simpa using this
  · intro hfail
    rcases hw : Irc.waitJoin incoming with ⟨les, ok⟩
    have hna := Irc.waitJoin_no_accept incoming
    rw [hw] at hna
    cases ok
    · simp only [Irc.ircAccept, hw] at hfail ⊢
      simp only [Bool.false_eq_true, if_false, List.mem_append]
      rintro (h | h)
      · rw [List.mem_map] at h
        obtain ⟨x, -, hx⟩ := h
        cases hx
      · exact hna h
    · simp [Irc.ircAccept, hw] at hfail
  · intro les hw
    simp [Irc.ircAccept, hw]

/-- Witness for C6: with two online peers and the incoming sequence
`PING`, `JOIN #hub`, the trace is the five numerics, the `PONG`, the
JOIN echo, two synthetic JOINs, acceptance, broadcast. -/
theorem irc_accept_sequence_witness :
    Irc.ircAccept
        ⟨"irc.host", "carol!c@irc.host", "carol", "MyHub", "h", "411",
          "go-hub-1", "Mon Jan 2 2006", "15:04:05", ["alice!a@x", "bob!b@x"]⟩
        [⟨"", "PING", ["tok"]⟩, ⟨"", "JOIN", ["#hub"]⟩] =
      ((Irc.ircNumerics
          ⟨"irc.host", "carol!c@irc.host", "carol", "MyHub", "h", "411",
            "go-hub-1", "Mon Jan 2 2006", "15:04:05",
            ["alice!a@x", "bob!b@x"]⟩).map .sent ++
        [.sent ⟨"", "PONG", ["tok"]⟩] ++
        [.sent ⟨"carol!c@irc.host", "JOIN", ["#hub"]⟩] ++
        [.sent ⟨"alice!a@x", "JOIN", ["#hub"]⟩,
         .sent ⟨"bob!b@x", "JOIN", ["#hub"]⟩] ++
        [.accepted, .broadcastJoin], true) := by
  have h := (irc_accept_sequence
    ⟨"irc.host", "carol!c@irc.host", "carol", "MyHub", "h", "411",
      "go-hub-1", "Mon Jan 2 2006", "15:04:05", ["alice!a@x", "bob!b@x"]⟩
    [⟨"", "PING", ["tok"]⟩, ⟨"", "JOIN", ["#hub"]⟩]).2.2.2
    [.sent ⟨"", "PONG", ["tok"]⟩] (by decide)
  rw [h]
  simp [Irc.PeersJoin, Irc.ircHubChan]

namespace Irc

/-! ### The nick-negotiation loop of `Hub.ircHandshake` (C7) -/

/-- The hub-side oracles the nick loop consults: `validName` models
`h.validateUserName(name) == nil`, `available` models
`h.nameAvailable(name, nil)`, and `reserveOk` the success flag of
`h.reserveName(name, nil, nil)`. -/
structure NickEnv where
  validName : String → Bool
  available : String → Bool
  reserveOk : String → Bool

/-- What the loop writes to the client: the `433` nick-taken numeric
carrying the rejected nick (the full message is
`433 * <nick> <errNickTaken>` with the host origin). -/
inductive NickEvent where
  | sent433 (nick : String)
deriving DecidableEq, Repr

/-- The `for` loop of `Hub.ircHandshake` up to a successful
`reserveName`.  `name` is the loop variable of the same name (`""`
before the first iteration, so the `USER` command is also expected
then).  Each iteration reads a `NICK` (anything else, or a read error
— modelled by exhausted input — fails the handshake), validates the
nick (failure exits with an error and no `433`), then checks
availability and reserves: either failure writes `433` with the
rejected nick and continues the loop; success exits with the reserved
nick.  The result is `(messages written, some reservedNick | none)`.
`nickAttempt` is the body from `h.validateUserName` to the end of the
iteration, with `cont` the rest of the loop. -/
def nickAttempt (env : NickEnv) (tname : String)
    (cont : List NickEvent × Option String) :
    List NickEvent × Option String :=
  if env.validName tname then
    if !env.available tname then (.sent433 tname :: cont.1, cont.2)
    else if env.reserveOk tname then ([], some tname)
    else (.sent433 tname :: cont.1, cont.2)
  else ([], none)

/-- The nick loop itself; see `nickAttempt` above. -/
def nickLoop (env : NickEnv) (name : String) :
    List IrcMsg → List NickEvent × Option String
  | [] => ([], none)
  | m :: rest =>
    if m.command == "NICK" && m.params.length == 1 then
      let tname := m.params.headD ""
      if name == "" then
        match rest with
        | [] => ([], none)
        | u :: rest2 =>
          if u.command == "USER" && u.params.length == 4 then
            nickAttempt env tname (nickLoop env tname rest2)
          else ([], none)
      else nickAttempt env tname (nickLoop env tname rest)
    else ([], none)

end Irc

/-- C7: during the IRC handshake, whenever the requested nick is valid
but already taken — either `nameAvailable` says no or the reservation
fails — the hub writes numeric `433` carrying the rejected nick and
keeps the connection: the loop goes on reading from the remaining
input exactly as before, and in particular a subsequent acceptable
`NICK` is reserved successfully. -/
theorem irc_nick_collision_433_and_continue (env : Irc.NickEnv)
    (name nick : String) (rest : List Irc.IrcMsg)
    (hname : name ≠ "") (hvalid : env.validName nick = true) :
    (env.available nick = false →
      Irc.nickLoop env name (⟨"", "NICK", [nick]⟩ :: rest) =
        (.sent433 nick :: (Irc.nickLoop env nick rest).1,
         (Irc.nickLoop env nick rest).2)) ∧
    (env.available nick = true → env.reserveOk nick = false →
      Irc.nickLoop env name (⟨"", "NICK", [nick]⟩ :: rest) =
        (.sent433 nick :: (Irc.nickLoop env nick rest).1,
         (Irc.nickLoop env nick rest).2)) ∧
    (∀ nick2, nick ≠ "" → env.available nick = false →
      env.validName nick2 = true → env.available nick2 = true →
      env.reserveOk nick2 = true →
      Irc.nickLoop env name
          (⟨"", "NICK", [nick]⟩ :: [⟨"", "NICK", [nick2]⟩]) =
        ([.sent433 nick], some nick2)) := by
  have hne : (name == "") = false := by simpa using hname
  have hstep : ∀ (nm n : String) (r : List Irc.IrcMsg), (nm == "") = false →
      Irc.nickLoop env nm (⟨"", "NICK", [n]⟩ :: r) =
        Irc.nickAttempt env n (Irc.nickLoop env n r) := by
    intro nm n r h
    rw [Irc.nickLoop]
    simp [h]
  refine ⟨fun hav => ?_, fun hav hres => ?_,
    fun nick2 hnick hav hv2 ha2 hr2 => ?_⟩
  · rw [hstep name nick rest hne, Irc.nickAttempt]
    simp [hvalid, hav]
  · rw [hstep name nick rest hne, Irc.nickAttempt]
    simp [hvalid, hav, hres]
  · have hn2 : (nick == "") = false := by simpa using hnick
    rw [hstep name nick [⟨"", "NICK", [nick2]⟩] hne,
      hstep nick nick2 [] hn2]
    rw [show Irc.nickLoop env nick2 [] = ([], none) from rfl]
    rw [Irc.nickAttempt, Irc.nickAttempt]
    simp [hvalid, hav, hv2, ha2, hr2]

/-- Witness for C7: with `bob` taken and `bob2` free, the loop sends
one `433` for `bob` and then reserves `bob2`. -/
theorem irc_nick_collision_433_and_continue_witness :
    Irc.nickLoop
        ⟨fun _ => true, fun n => n != "bob", fun _ => true⟩ "x"
        [⟨"", "NICK", ["bob"]⟩, ⟨"", "NICK", ["bob2"]⟩] =
      ([.sent433 "bob"], some "bob2") :=
  (irc_nick_collision_433_and_continue
    ⟨fun _ => true, fun n => n != "bob", fun _ => true⟩ "x" "bob"
    [⟨"", "NICK", ["bob2"]⟩] (by decide) rfl).2.2 "bob2"
    (by decide) rfl rfl (by decide) rfl

namespace Irc

/-! ### The post-handshake session loop of `Hub.ServeIRC` (C10) -/

/-- The observable actions of the `ServeIRC` message loop: a `PONG`
reply, a chat message handed to `h.globalChat.SendChat`, or a private
message handed to `h.privateChat`. -/
inductive ServeEvent where
  | pong (m : IrcMsg)
  | globalChatMsg (text : String)
  | privateChatMsg (dst text : String)
deriving DecidableEq, Repr

/-- How the loop exited: `clean` for `return nil` (EOF, `QUIT`, or
global chat disabled), `errored` for `return err`. -/
inductive ServeExit where
  | clean
  | errored
deriving DecidableEq, Repr

/-- The `for` loop of `Hub.ServeIRC` after a successful handshake.
`globalChatEnabled` models `h.getGlobalChatEnabled()` and `peerExists`
models `h.PeerByName(dst) != nil`.  Exhausted input models
`io.EOF`. -/
def serveLoop (globalChatEnabled : Bool) (peerExists : String → Bool) :
    List IrcMsg → List ServeEvent × ServeExit
  | [] => ([], .clean)
  | m :: rest =>
    if m.command == "PING" then
      let (es, ex) := serveLoop globalChatEnabled peerExists rest
      (.pong { m with command := "PONG" } :: es, ex)
    else if m.command == "PRIVMSG" then
      if m.params.length != 2 then ([], .errored)
      else
        let dst := m.params.headD ""
        let msg := m.params.getD 1 ""
        if dst == ircHubChan then
          if !globalChatEnabled then ([], .clean)
          else
            let (es, ex) := serveLoop globalChatEnabled peerExists rest
            (.globalChatMsg msg :: es, ex)
        else if peerExists dst then
          let (es, ex) := serveLoop globalChatEnabled peerExists rest
          (.privateChatMsg dst msg :: es, ex)
        else serveLoop globalChatEnabled peerExists rest
    else if m.command == "QUIT" then ([], .clean)
    else serveLoop globalChatEnabled peerExists rest

/-- `Hub.ServeIRC` around the loop: when the loop returns, the
deferred `peer.Close()` runs, so the connection is torn down. -/
structure ServeOutcome where
  events : List ServeEvent
  exit : ServeExit
  connClosed : Bool
deriving DecidableEq, Repr

/-- `Hub.ServeIRC` from the point the peer was accepted. -/
def serveIRC (globalChatEnabled : Bool) (peerExists : String → Bool)
    (incoming : List IrcMsg) : ServeOutcome :=
  let (es, ex) := serveLoop globalChatEnabled peerExists incoming
  ⟨es, ex, true⟩

end Irc

/-- C10: when an accepted IRC peer sends `PRIVMSG` to `#hub` while
global chat is disabled, the message is delivered to nobody (no chat
event is emitted), the session loop returns at once — the remaining
input is never read — and the deferred close tears the connection
down. -/
theorem irc_privmsg_global_chat_disabled_terminates
    (peerExists : String → Bool) (text : String)
    (rest : List Irc.IrcMsg) :
    Irc.serveIRC false peerExists
        (⟨"", "PRIVMSG", ["#hub", text]⟩ :: rest) =
      ⟨[], .clean, true⟩ := by
  simp [Irc.serveIRC, Irc.serveLoop, Irc.ircHubChan]

end GoDcpp
